import Mathlib

/-!
Shallow embedding of the moksha mint core (src/moksha-mint/src/mint.rs) and of
the rocksdb-backed store (src/mint/src/database.rs), together with theorems
settling the specification claims about them.

Curve points and scalars are opaque to the mint core: `mint.rs` only moves them
between structures, so they are modelled as natural numbers and the BDHKE
`step2_bob` operation as an abstract function carried by the `Mint` structure.
Rust panics (from `unwrap` / `expect`) are modelled as dedicated error
constructors prefixed `panic`, distinct from every error the code returns.
-/

/-- Error type of the mint, after `MokshaMintError` (moksha-mint/src/error.rs is
not under src/; the constructors are the variants named by mint.rs and the
spec's taxonomy). The `panic` constructors model Rust panics from `unwrap` and
`expect`, which are not error returns. -/
inductive MintErr where
  | invoiceNotFound
  | invoiceNotPaidYet
  | proofAlreadyUsed
  | swapHasDuplicatePromises
  | swapAmountMismatch
  | invoiceAmountTooLow
  | amountMismatch
  | unsupportedDenomination
  | invalidInvoice
  | lightningPaymentFailed
  | storageError
  | panicMissingPrivateKey
  | panicInvoiceAmountMissing
deriving DecidableEq, Repr

/-- A proof (bearer token), after `Proof` in the spec's data model:
amount, secret, unblinded signature C, optional keyset id, optional script. -/
structure Proof where
  amount : Nat
  secret : String
  c : Nat
  id : Option String
  script : Option String
deriving DecidableEq, Repr

/-- A blinded message `{amount, B_}` produced by a client. -/
structure BlindedMessage where
  amount : Nat
  b_ : Nat
deriving DecidableEq, Repr

/-- A blinded signature `{id, amount, C_}` produced by the mint. -/
structure BlindedSignature where
  id : Option String
  amount : Nat
  c_ : Nat
deriving DecidableEq, Repr

/-- Embeds `Proofs::total_amount`: the sum of the amounts of a proof collection. -/
def total_amount (proofs : List Proof) : Nat :=
  (proofs.map (·.amount)).sum

/-- Embeds `TotalAmount` for `Vec<BlindedSignature>`. -/
def sig_total_amount (sigs : List BlindedSignature) : Nat :=
  (sigs.map (·.amount)).sum

/-- Embeds `TotalAmount` for `Vec<BlindedMessage>`. -/
def msg_total_amount (msgs : List BlindedMessage) : Nat :=
  (msgs.map (·.amount)).sum

/-- A pending invoice `{amount, payment_request}`. -/
structure Invoice where
  amount : Nat
  payment_request : String
deriving DecidableEq, Repr

/-- A keyset held by the mint: the per-denomination private keys
(`private_keys.get(&amount)` is lookup in a map) and the keyset id. The
derivation itself lives in moksha-core, outside src/; only the lookup map and
the id matter to the mint core. -/
structure MintKeyset where
  private_keys : Nat → Option Nat
  keyset_id : String

/-- A decoded BOLT-11 invoice as the mint core reads it:
`amount_milli_satoshis()` may be absent. -/
structure DecodedInvoice where
  amountMsat : Option Nat
deriving DecidableEq, Repr

/-- Result of `pay_invoice`. -/
structure PayInvoiceResult where
  paymentHash : String
deriving DecidableEq, Repr

/-- Modelled from the spec: the `Lightning` contract of §4.4 (the trait and its
drivers are not under src/): report whether an invoice is settled, decode a
BOLT-11 payment request, and pay an invoice returning a payment hash or an
error. -/
structure Lightning where
  isInvoicePaid : String → Bool
  decodeInvoice : String → Except MintErr DecodedInvoice
  payInvoice : String → Except MintErr PayInvoiceResult

/-- State of the moksha-mint database: the spent-proof store and the pending
invoices, keyed by the mint key. -/
structure DbState where
  usedProofs : List Proof
  pendingInvoices : List (String × Invoice)
deriving DecidableEq, Repr

/-- Modelled from the spec: `Database::get_pending_invoice` of the moksha-mint
`Database` trait (not under src/): fetch the invoice stored under `key`,
`InvoiceNotFound` if absent (§4.3). -/
def DbState.getPendingInvoice (db : DbState) (key : String) : Except MintErr Invoice :=
  match db.pendingInvoices.lookup key with
  | some inv => .ok inv
  | none => .error .invoiceNotFound

/-- Modelled from the spec: `Database::delete_pending_invoice` of the
moksha-mint `Database` trait (not under src/): idempotent delete (§4.3). -/
def DbState.deletePendingInvoice (db : DbState) (key : String) : DbState :=
  { db with pendingInvoices := db.pendingInvoices.filter (fun kv => kv.fst ≠ key) }

/-- Modelled from the spec: `Database::add_used_proofs` of the moksha-mint
`Database` trait (not under src/): atomically insert every proof into the spent
set; if any incoming secret is already present the whole operation fails with
`ProofAlreadyUsed` without adding any (§4.3). -/
def DbState.addUsedProofs (db : DbState) (proofs : List Proof) : Except MintErr DbState :=
  if ∃ p ∈ proofs, ∃ u ∈ db.usedProofs, u.secret = p.secret then
    .error .proofAlreadyUsed
  else
    .ok { db with usedProofs := db.usedProofs ++ proofs }

/-- The mint core: the Lightning adapter and the abstract BDHKE step2
(`Dhke::step2_bob`, modelled as an arbitrary total function on the opaque
point/scalar representations; the spec defines it as the scalar multiplication
`C_ = sk · B_`, which is total). -/
structure Mint where
  lightning : Lightning
  dhkeStep2 : Nat → Nat → Nat

/-- Embeds `Mint::create_blinded_signatures` (mint.rs lines 88 to 106): for each
blinded message look up the private key for its amount — the source calls
`unwrap` on the lookup, so a missing key is a panic, modelled as
`panicMissingPrivateKey` — and produce a signature carrying the keyset id, the
message's amount, and `step2_bob(B_, sk)`. -/
def create_blinded_signatures (m : Mint) (keyset : MintKeyset) :
    List BlindedMessage → Except MintErr (List BlindedSignature)
  | [] => .ok []
  | msg :: rest =>
    match keyset.private_keys msg.amount with
    | none => .error .panicMissingPrivateKey
    | some sk =>
      match create_blinded_signatures m keyset rest with
      | .error e => .error e
      | .ok sigs =>
        .ok ({ id := some keyset.keyset_id, amount := msg.amount,
               c_ := m.dhkeStep2 msg.b_ sk } :: sigs)

/-- The loop body of `Mint::check_used_proofs` (mint.rs lines 214 to 222):
iterate over the stored used proofs and fail as soon as one of them is
contained in the incoming proof list. Containment is `Vec::contains`, i.e.
structural equality of whole proofs. -/
def check_used_proofs_loop : List Proof → List Proof → Except MintErr Unit
  | [], _ => .ok ()
  | u :: rest, proofs =>
    if u ∈ proofs then .error .proofAlreadyUsed
    else check_used_proofs_loop rest proofs

/-- Embeds `Mint::check_used_proofs`: read the spent store snapshot and run the loop. -/
def check_used_proofs (db : DbState) (proofs : List Proof) : Except MintErr Unit :=
  check_used_proofs_loop db.usedProofs proofs

/-- Embeds `Mint::has_duplicate_pubkeys` (mint.rs lines 141 to 144): true iff two
outputs share the same blinded point `B_`. -/
def has_duplicate_pubkeys (outputs : List BlindedMessage) : Bool :=
  decide (¬ (outputs.map (·.b_)).Nodup)

/-- Embeds `Mint::mint_tokens` (mint.rs lines 120 to 139): load the pending invoice by
key, ask Lightning whether it is paid, fail `InvoiceNotPaidYet` if not, delete
the pending invoice, and produce blinded signatures for the outputs. The
invoice amount is never compared with the outputs. Returns the result together
with the database state after the call. -/
def mint_tokens (m : Mint) (db : DbState) (key : String) (outputs : List BlindedMessage)
    (keyset : MintKeyset) : Except MintErr (List BlindedSignature) × DbState :=
  match db.getPendingInvoice key with
  | .error e => (.error e, db)
  | .ok invoice =>
    if ¬ m.lightning.isInvoicePaid invoice.payment_request then
      (.error .invoiceNotPaidYet, db)
    else
      let db2 := db.deletePendingInvoice key
      (create_blinded_signatures m keyset outputs, db2)

/-- Embeds `Mint::swap` (mint.rs lines 146 to 170): double-spend check, duplicate
blinded-point check, signature creation, total-amount comparison between input
proofs and produced promises, then commit of the used proofs. -/
def swap (m : Mint) (db : DbState) (proofs : List Proof)
    (blinded_messages : List BlindedMessage) (keyset : MintKeyset) :
    Except MintErr (List BlindedSignature) × DbState :=
  match check_used_proofs db proofs with
  | .error e => (.error e, db)
  | .ok _ =>
    if has_duplicate_pubkeys blinded_messages then
      (.error .swapHasDuplicatePromises, db)
    else
      let sum_proofs := total_amount proofs
      match create_blinded_signatures m keyset blinded_messages with
      | .error e => (.error e, db)
      | .ok promises =>
        if sum_proofs ≠ sig_total_amount promises then
          (.error .swapAmountMismatch, db)
        else
          match db.addUsedProofs proofs with
          | .error e => (.error e, db)
          | .ok db2 => (.ok promises, db2)

/-- Embeds `Mint::melt` (mint.rs lines 172 to 212): decode the invoice, double-spend
check, extract `amount_milli_satoshis` (the source calls `expect`, so a missing
amount is a panic, modelled as `panicInvoiceAmountMissing`), fail
`InvoiceAmountTooLow` when `amount_msat < proofs_amount / 1000`, pay the
invoice, commit the used proofs, and sign the change outputs unconditionally.
Returns the result together with the database state after the call. -/
def melt (m : Mint) (db : DbState) (payment_request : String) (proofs : List Proof)
    (blinded_messages : List BlindedMessage) (keyset : MintKeyset) :
    Except MintErr (Bool × String × List BlindedSignature) × DbState :=
  match m.lightning.decodeInvoice payment_request with
  | .error e => (.error e, db)
  | .ok invoice =>
    let proofs_amount := total_amount proofs
    match check_used_proofs db proofs with
    | .error e => (.error e, db)
    | .ok _ =>
      match invoice.amountMsat with
      | none => (.error .panicInvoiceAmountMissing, db)
      | some amount_msat =>
        if amount_msat < proofs_amount / 1000 then
          (.error .invoiceAmountTooLow, db)
        else
          match m.lightning.payInvoice payment_request with
          | .error e => (.error e, db)
          | .ok result =>
            match db.addUsedProofs proofs with
            | .error e => (.error e, db)
            | .ok db2 =>
              match create_blinded_signatures m keyset blinded_messages with
              | .error e => (.error e, db2)
              | .ok change => (.ok (true, result.paymentHash, change), db2)

/-- The rocksdb-backed store of src/mint/src/database.rs: each `DbKeyPrefix`
indexes at most one serialized value; the claims only touch the `UsedProofs`
key, whose value is a serialized proof list. -/
structure Database where
  used_proofs_entry : Option (List Proof)
deriving DecidableEq, Repr

/-- Embeds `Database::add_used_proofs` (database.rs lines 56 to 58): serialize the
argument and `put` it under the `UsedProofs` key — a plain overwrite of
whatever was stored there. -/
def Database.add_used_proofs (db : Database) (proofs : List Proof) : Database :=
  { db with used_proofs_entry := some proofs }

/-- Embeds `Database::get_used_proofs` (database.rs lines 60 to 63): read the value
under the `UsedProofs` key, defaulting to the empty collection. -/
def Database.get_used_proofs (db : Database) : List Proof :=
  db.used_proofs_entry.getD []

/-! ## Helper lemmas -/

lemma create_blinded_signatures_error_eq (m : Mint) (ks : MintKeyset) :
    ∀ (msgs : List BlindedMessage) (e : MintErr),
      create_blinded_signatures m ks msgs = .error e → e = .panicMissingPrivateKey := by
  intro msgs
  induction msgs with
  | nil => intro e h; simp [create_blinded_signatures] at h
  | cons msg rest ih =>
    intro e h
    simp only [create_blinded_signatures] at h
    cases hk : ks.private_keys msg.amount with
    | none => rw [hk] at h; cases h; rfl
    | some sk =>
      rw [hk] at h
      cases hr : create_blinded_signatures m ks rest with
      | error e2 => rw [hr] at h; cases h; exact ih _ hr
      | ok sigs => rw [hr] at h; cases h

lemma create_blinded_signatures_ok_spec (m : Mint) (ks : MintKeyset) :
    ∀ (msgs : List BlindedMessage) (sigs : List BlindedSignature),
      create_blinded_signatures m ks msgs = .ok sigs →
      sigs.length = msgs.length ∧
      (∀ i, (sigs.get? i).map (·.amount) = (msgs.get? i).map (·.amount)) ∧
      (∀ i, i < msgs.length → (sigs.get? i).map (·.id) = some (some ks.keyset_id)) ∧
      sig_total_amount sigs = msg_total_amount msgs := by
  intro msgs
  induction msgs with
  | nil =>
    intro sigs h
    simp only [create_blinded_signatures] at h
    cases h
    simp [sig_total_amount, msg_total_amount]
  | cons msg rest ih =>
    intro sigs h
    simp only [create_blinded_signatures] at h
    cases hk : ks.private_keys msg.amount with
    | none => rw [hk] at h; cases h
    | some sk =>
      rw [hk] at h
      cases hr : create_blinded_signatures m ks rest with
      | error e2 => rw [hr] at h; cases h
      | ok sigs2 =>
        rw [hr] at h
        cases h
        obtain ⟨hlen, hamt, hid, htot⟩ := ih sigs2 hr
        refine ⟨by simp [hlen], ?_, ?_, ?_⟩
        · intro i
          cases i with
          | zero => rfl
          | succ j => simpa using hamt j
        · intro i hi
          cases i with
          | zero => rfl
          | succ j =>
            simp only [List.length_cons, Nat.succ_lt_succ_iff] at hi
            simpa using hid j hi
        · simp [sig_total_amount, msg_total_amount] at htot ⊢
          omega

lemma create_blinded_signatures_isSome_ok (m : Mint) (ks : MintKeyset) :
    ∀ (msgs : List BlindedMessage),
      (∀ msg ∈ msgs, (ks.private_keys msg.amount).isSome = true) →
      ∃ sigs, create_blinded_signatures m ks msgs = .ok sigs := by
  intro msgs
  induction msgs with
  | nil => intro _; exact ⟨[], rfl⟩
  | cons msg rest ih =>
    intro h
    obtain ⟨sigs2, hr⟩ := ih (fun x hx => h x (List.mem_cons_of_mem _ hx))
    have hk := h msg (List.mem_cons_self _ _)
    obtain ⟨sk, hsk⟩ := Option.isSome_iff_exists.mp hk
    refine ⟨{ id := some ks.keyset_id, amount := msg.amount,
              c_ := m.dhkeStep2 msg.b_ sk } :: sigs2, ?_⟩
    simp only [create_blinded_signatures, hsk, hr]

lemma check_used_proofs_loop_error_iff : ∀ (us ps : List Proof),
    check_used_proofs_loop us ps = .error .proofAlreadyUsed ↔ ∃ u ∈ us, u ∈ ps := by
  intro us ps
  induction us with
  | nil => simp [check_used_proofs_loop]
  | cons u rest ih =>
    simp only [check_used_proofs_loop]
    by_cases hm : u ∈ ps
    · simp [hm]
    · simp [hm, ih]

lemma check_used_proofs_loop_ok_or : ∀ (us ps : List Proof),
    check_used_proofs_loop us ps = .ok () ∨
      check_used_proofs_loop us ps = .error .proofAlreadyUsed := by
  intro us ps
  induction us with
  | nil => exact Or.inl rfl
  | cons u rest ih =>
    simp only [check_used_proofs_loop]
    by_cases hm : u ∈ ps
    · simp [hm]
    · simpa [hm] using ih

lemma addUsedProofs_error_eq (db : DbState) (proofs : List Proof) (e : MintErr)
    (h : db.addUsedProofs proofs = .error e) : e = .proofAlreadyUsed := by
  unfold DbState.addUsedProofs at h
  split at h
  · cases h; rfl
  · cases h

/-! ## Claim theorems -/

/-- Claim C4, counterexample: the spent store holds a record with secret `s`
and amount 1; a submitted proof with the same secret `s` but amount 2 passes
`check_used_proofs`, although the claim requires rejection whenever the secret
alone matches. -/
theorem check_used_proofs_secret_only_cex :
    (Proof.mk 1 "s" 0 none none).secret = (Proof.mk 2 "s" 0 none none).secret ∧
    check_used_proofs (DbState.mk [Proof.mk 1 "s" 0 none none] [])
      [Proof.mk 2 "s" 0 none none] = .ok () := by
  exact ⟨rfl, rfl⟩

/-- Claim C4 (amended): `check_used_proofs(proofs)` fails with
`ProofAlreadyUsed` if and only if some record of the spent store is
structurally equal — in every field: amount, secret, C, id and script — to
some input proof; a proof whose secret is spent but whose amount, C or id
differ from the stored record is not rejected. -/
theorem check_used_proofs_full_equality (db : DbState) (proofs : List Proof) :
    check_used_proofs db proofs = .error .proofAlreadyUsed ↔
      ∃ u ∈ db.usedProofs, u ∈ proofs :=
  check_used_proofs_loop_error_iff db.usedProofs proofs

/-- Claim C2, counterexample: after `add_used_proofs [a-proof]` followed by
`add_used_proofs [b-proof]` on the store of src/mint/src/database.rs, the
proof inserted by the first call is no longer in `get_used_proofs`, although
the claim requires every secret inserted by the first call to still be
present. -/
theorem add_used_proofs_overwrite_cex :
    (Proof.mk 1 "a" 0 none none) ∈
        ((Database.mk none).add_used_proofs [Proof.mk 1 "a" 0 none none]).get_used_proofs ∧
    (Proof.mk 1 "a" 0 none none) ∉
        (((Database.mk none).add_used_proofs [Proof.mk 1 "a" 0 none none]).add_used_proofs
          [Proof.mk 2 "b" 0 none none]).get_used_proofs := by
  exact ⟨by decide, by decide⟩

/-- Claim C2 (amended): `add_used_proofs` of src/mint/src/database.rs stores
its argument as the entire spent record under the `UsedProofs` key, replacing
whatever was stored before: after `add_used_proofs(p1)` then
`add_used_proofs(p2)`, `get_used_proofs` returns exactly `p2`, so entries from
the first call are lost unless repeated in `p2`; the operation performs no
duplicate check and never fails with `ProofAlreadyUsed`. -/
theorem add_used_proofs_replaces_store (db : Database) (p1 p2 : List Proof) :
    ((db.add_used_proofs p1).add_used_proofs p2).get_used_proofs = p2 ∧
    (db.add_used_proofs p1).get_used_proofs = p1 :=
  ⟨rfl, rfl⟩

/-! ## Concrete fixtures used by closed theorems and witnesses -/

/-- A keyset holding a private key for every amount; the key values are
irrelevant to the claims, which only inspect amounts and ids. -/
def ksW : MintKeyset := ⟨fun a => some (a + 1), "keyset-w"⟩

/-- Modelled from the spec: a keyset whose supported denominations are the
powers of two up to 32 (§3: all denominations are integer powers of two); the
derivation of the key values lives in moksha-core, outside src/, and is
irrelevant to the claim. -/
def ksPow2 : MintKeyset :=
  ⟨fun a => if a = 1 ∨ a = 2 ∨ a = 4 ∨ a = 8 ∨ a = 16 ∨ a = 32 then some (a + 7) else none,
   "pow2-keyset"⟩

/-- A mint whose Lightning backend reports every invoice paid. -/
def mPaid : Mint :=
  ⟨⟨fun _ => true, fun _ => .error .invalidInvoice, fun _ => .error .lightningPaymentFailed⟩,
   fun b k => b + k⟩

/-- A mint whose backend decodes every invoice to 10000 msat and pays
successfully. -/
def m3 : Mint :=
  ⟨⟨fun _ => true, fun _ => .ok ⟨some 10000⟩, fun _ => .ok ⟨"payhash"⟩⟩, fun b k => b + k⟩

/-- A mint whose backend decodes every invoice to 20000 msat (20 sat) and pays
successfully. -/
def mMelt : Mint :=
  ⟨⟨fun _ => true, fun _ => .ok ⟨some 20000⟩, fun _ => .ok ⟨"melthash"⟩⟩, fun b k => b + k⟩

/-- A mint whose backend fails every payment. -/
def mPayFail : Mint :=
  ⟨⟨fun _ => true, fun _ => .ok ⟨some 20000⟩, fun _ => .error .lightningPaymentFailed⟩,
   fun b k => b + k⟩

/-- The empty database state. -/
def db0 : DbState := ⟨[], []⟩

/-- A database state holding one pending 100-sat invoice under key somehash. -/
def db100 : DbState := ⟨[], [("somehash", ⟨100, "pr100"⟩)]⟩

/-- Outputs totalling 40 sats. -/
def outs40 : List BlindedMessage := [⟨8, 1⟩, ⟨32, 2⟩]

/-- A single 3-sat proof. -/
def proofs3 : List Proof := [⟨3, "c3secret", 0, none, none⟩]

/-- Proofs totalling 60 sats. -/
def proofs60 : List Proof :=
  [⟨32, "m1", 0, none, none⟩, ⟨16, "m2", 0, none, none⟩,
   ⟨8, "m3", 0, none, none⟩, ⟨4, "m4", 0, none, none⟩]

/-- Change outputs totalling 50 sats. -/
def change50 : List BlindedMessage := [⟨2, 11⟩, ⟨16, 12⟩, ⟨32, 13⟩]

/-- Claim C1: evaluation at the failing input. A pending invoice of 100 sats
under key somehash is reported paid; the outputs total 40 sats, yet
`mint_tokens` returns Ok with signatures totalling 40 and never compares the
totals — no `AmountMismatch` is possible, contradicting the claimed strict
value check. -/
theorem mint_tokens_value_check_missing :
    msg_total_amount outs40 = 40 ∧
    db100.getPendingInvoice "somehash" = .ok ⟨100, "pr100"⟩ ∧
    mPaid.lightning.isInvoicePaid "pr100" = true ∧
    (∃ sigs db2, mint_tokens mPaid db100 "somehash" outs40 ksW = (.ok sigs, db2) ∧
      sig_total_amount sigs = 40) ∧
    (40 : Nat) ≠ 100 := by
  exact ⟨rfl, rfl, rfl, ⟨_, _, rfl, rfl⟩, by decide⟩

/-- Claim C5: evaluation at the failing input. Proofs totalling 60 sats melt a
20000-msat invoice, so the claimed change bound is 60 − 20 = 40 sats; the
change outputs total 50 sats, yet `melt` pays and returns Ok with change
signatures totalling 50 — the request is not refused and the returned change
exceeds the bound. -/
theorem melt_change_unchecked :
    total_amount proofs60 = 60 ∧
    total_amount proofs60 - 20000 / 1000 = 40 ∧
    msg_total_amount change50 = 50 ∧
    (∃ sigs db2,
      melt mMelt db0 "pr20" proofs60 change50 ksW = (.ok (true, "melthash", sigs), db2) ∧
      sig_total_amount sigs = 50) := by
  exact ⟨rfl, rfl, rfl, ⟨_, _, rfl, rfl⟩⟩

/-- Claim C8: evaluation at the failing input. Amount 3 is not a supported
denomination of the power-of-two keyset, so `private_keys.get` returns nothing
and the source's `unwrap` panics — modelled as `panicMissingPrivateKey`, which
is not the claimed `UnsupportedDenomination` client error. -/
theorem create_blinded_signatures_panics_on_unknown_denomination :
    ksPow2.private_keys 3 = none ∧
    create_blinded_signatures mPaid ksPow2 [⟨3, 9⟩] = .error .panicMissingPrivateKey ∧
    MintErr.panicMissingPrivateKey ≠ MintErr.unsupportedDenomination :=
  ⟨rfl, rfl, by decide⟩

/-- Claim C3, counterexample: a melt of a single 3-sat proof against a
10000-msat invoice succeeds, although 3 · 1000 < 10000 + reserve holds for
every possible reserve value, so the claimed fee bound would demand
`InvoiceAmountTooLow`. -/
theorem melt_fee_reserve_cex :
    (∀ r : Nat, total_amount proofs3 * 1000 < 10000 + r) ∧
    (melt m3 db0 "pr" proofs3 [] ksW).fst = .ok (true, "payhash", []) := by
  constructor
  · intro r
    have h3 : total_amount proofs3 = 3 := rfl
    omega
  · rfl

/-- Claim C3 (amended): with a decodable invoice carrying `amount_msat`,
inputs that pass the double-spend check, and a Lightning adapter whose payment
errors are never `InvoiceAmountTooLow`, `melt` fails with
`InvoiceAmountTooLow` if and only if `amount_msat < floor(Σ proofs.amount /
1000)`. The fee reserve plays no part, and the proof total is divided by 1000
rather than converted to msat. -/
theorem melt_fee_check_iff (m : Mint) (db : DbState) (pr : String) (proofs : List Proof)
    (msgs : List BlindedMessage) (ks : MintKeyset) (a : Nat)
    (hdec : m.lightning.decodeInvoice pr = .ok ⟨some a⟩)
    (hchk : check_used_proofs db proofs = .ok ())
    (hpay : ∀ e, m.lightning.payInvoice pr = .error e → e ≠ .invoiceAmountTooLow) :
    ((melt m db pr proofs msgs ks).fst = .error .invoiceAmountTooLow ↔
      a < total_amount proofs / 1000) := by
  by_cases hlt : a < total_amount proofs / 1000
  · simp [melt, hdec, hchk, hlt]
  · cases hp : m.lightning.payInvoice pr with
    | error e =>
      have he := hpay e hp
      simp [melt, hdec, hchk, hlt, hp, he]
    | ok r =>
      cases hadd : db.addUsedProofs proofs with
      | error e2 =>
        have he2 := addUsedProofs_error_eq db proofs e2 hadd
        simp [melt, hdec, hchk, hlt, hp, hadd, he2]
      | ok db2 =>
        cases hcr : create_blinded_signatures m ks msgs with
        | error e3 =>
          have he3 := create_blinded_signatures_error_eq m ks msgs e3 hcr
          simp [melt, hdec, hchk, hlt, hp, hadd, hcr, he3]
        | ok change => simp [melt, hdec, hchk, hlt, hp, hadd, hcr]

/-- Claim C3, witness for the amended theorem at the concrete input of the
counterexample: 10000 msat against a 3-sat proof, where the code's condition
is false. -/
theorem melt_fee_check_iff_witness :
    ((melt m3 db0 "pr" proofs3 [] ksW).fst = .error .invoiceAmountTooLow ↔
      10000 < total_amount proofs3 / 1000) :=
  melt_fee_check_iff m3 db0 "pr" proofs3 [] ksW 10000 rfl rfl
    (fun _ h => Except.noConfusion h)

/-- Claim C6: whenever `pay_invoice` fails for the submitted payment request,
`melt` returns an error — so no blinded signatures are produced — and the
database state is unchanged, so the proofs are not added to the spent set. -/
theorem melt_pay_failure_no_spend (m : Mint) (db : DbState) (pr : String)
    (proofs : List Proof) (msgs : List BlindedMessage) (ks : MintKeyset) (e : MintErr)
    (h : m.lightning.payInvoice pr = .error e) :
    (melt m db pr proofs msgs ks).snd = db ∧
      ∃ e2, (melt m db pr proofs msgs ks).fst = .error e2 := by
  cases hdec : m.lightning.decodeInvoice pr with
  | error e3 => simp [melt, hdec]
  | ok invoice =>
    cases hchk : check_used_proofs db proofs with
    | error e3 => simp [melt, hdec, hchk]
    | ok u =>
      cases u
      cases ham : invoice.amountMsat with
      | none => simp [melt, hdec, hchk, ham]
      | some a =>
        by_cases hlt : a < total_amount proofs / 1000
        · simp [melt, hdec, hchk, ham, hlt]
        · simp [melt, hdec, hchk, ham, hlt, h]

/-- Claim C6, witness: a concrete melt against a backend that fails every
payment leaves the database unchanged and returns an error. -/
theorem melt_pay_failure_no_spend_witness :
    (melt mPayFail db0 "pr" proofs60 change50 ksW).snd = db0 ∧
      ∃ e2, (melt mPayFail db0 "pr" proofs60 change50 ksW).fst = .error e2 :=
  melt_pay_failure_no_spend mPayFail db0 "pr" proofs60 change50 ksW
    .lightningPaymentFailed rfl

/-- Claim C7: every successful `swap` conserves value — the returned
signatures total exactly the input proofs' total; and when the totals of
proofs and outputs differ while no earlier check intervenes (inputs pass the
double-spend check, no duplicate blinded point, every output denomination
keyed), `swap` fails with `SwapAmountMismatch` and leaves the database
unchanged, so the proofs are not added to the spent set. -/
theorem swap_conservation (m : Mint) (db : DbState) (proofs : List Proof)
    (msgs : List BlindedMessage) (ks : MintKeyset) :
    (∀ promises db2, swap m db proofs msgs ks = (.ok promises, db2) →
        sig_total_amount promises = total_amount proofs) ∧
    (check_used_proofs db proofs = .ok () → has_duplicate_pubkeys msgs = false →
      (∀ msg ∈ msgs, (ks.private_keys msg.amount).isSome = true) →
      total_amount proofs ≠ msg_total_amount msgs →
      swap m db proofs msgs ks = (.error .swapAmountMismatch, db)) := by
  constructor
  · intro promises db2 h
    cases hchk : check_used_proofs db proofs with
    | error e => simp [swap, hchk] at h
    | ok u =>
      cases u
      by_cases hdup : has_duplicate_pubkeys msgs
      · simp [swap, hchk, hdup] at h
      · cases hcr : create_blinded_signatures m ks msgs with
        | error e => simp [swap, hchk, hdup, hcr] at h
        | ok sigs =>
          by_cases hne : total_amount proofs ≠ sig_total_amount sigs
          · simp [swap, hchk, hdup, hcr, hne] at h
          · cases hadd : db.addUsedProofs proofs with
            | error e => simp [swap, hchk, hdup, hcr, hne, hadd] at h
            | ok db3 =>
              simp [swap, hchk, hdup, hcr, hne, hadd] at h
              rw [← h.1]
              exact (not_not.mp hne).symm
  · intro hchk hdup hkeys hne
    obtain ⟨sigs, hcr⟩ := create_blinded_signatures_isSome_ok m ks msgs hkeys
    have htot := (create_blinded_signatures_ok_spec m ks msgs sigs hcr).2.2.2
    have hne2 : total_amount proofs ≠ sig_total_amount sigs := by
      rw [htot]; exact hne
    simp [swap, hchk, hdup, hcr, hne2]

/-- Claim C7, witness: a concrete swap of the 60-sat proofs into the 50-sat
outputs, passing every earlier check, fails with `SwapAmountMismatch` and
leaves the database unchanged. -/
theorem swap_conservation_witness :
    swap mPaid db0 proofs60 change50 ksW = (.error .swapAmountMismatch, db0) :=
  (swap_conservation mPaid db0 proofs60 change50 ksW).2 rfl rfl
    (fun _ _ => rfl) (by decide)

/-- Claim C10: when every blinded message's amount has a private key in the
keyset, `create_blinded_signatures` returns Ok with a list of the same length,
whose i-th signature carries the i-th message's amount and an id equal to the
keyset's id, and whose total amount equals the requested outputs' total. -/
theorem create_blinded_signatures_spec (m : Mint) (ks : MintKeyset)
    (msgs : List BlindedMessage)
    (h : ∀ msg ∈ msgs, (ks.private_keys msg.amount).isSome = true) :
    ∃ sigs, create_blinded_signatures m ks msgs = .ok sigs ∧
      sigs.length = msgs.length ∧
      (∀ i, (sigs.get? i).map (·.amount) = (msgs.get? i).map (·.amount)) ∧
      (∀ i, i < msgs.length → (sigs.get? i).map (·.id) = some (some ks.keyset_id)) ∧
      sig_total_amount sigs = msg_total_amount msgs := by
  obtain ⟨sigs, hcr⟩ := create_blinded_signatures_isSome_ok m ks msgs h
  exact ⟨sigs, hcr, create_blinded_signatures_ok_spec m ks msgs sigs hcr⟩

/-- Claim C10, witness: the specification applied to two concrete outputs of
amounts 8 and 2 against the all-denomination keyset. -/
theorem create_blinded_signatures_spec_witness :
    ∃ sigs, create_blinded_signatures mPaid ksW [⟨8, 5⟩, ⟨2, 6⟩] = .ok sigs ∧
      sigs.length = ([⟨8, 5⟩, ⟨2, 6⟩] : List BlindedMessage).length ∧
      (∀ i, (sigs.get? i).map (·.amount) =
        (([⟨8, 5⟩, ⟨2, 6⟩] : List BlindedMessage).get? i).map (·.amount)) ∧
      (∀ i, i < ([⟨8, 5⟩, ⟨2, 6⟩] : List BlindedMessage).length →
        (sigs.get? i).map (·.id) = some (some ksW.keyset_id)) ∧
      sig_total_amount sigs = msg_total_amount [⟨8, 5⟩, ⟨2, 6⟩] :=
  create_blinded_signatures_spec mPaid ksW [⟨8, 5⟩, ⟨2, 6⟩] (fun _ _ => rfl)
